import Mathlib

/-!
Shallow embedding of the Weather Chimes firmware: the task state machine and
main while-True loop of weather_chimes_code.py, the wind-to-music mapping of
its TASK 2 body, the NOAA wind-color selection of its TASK 3 body, and the
update_weather / wind_direction members of weather_chimes_wifi.py and its
OpenWeather variant.  Python numerics are modelled by exact rationals; the
CircuitPython integer-second clock by Nat.
-/

namespace WeatherChimes

/-- State machine status definitions (weather_chimes_code.py, class State:
FIRST_RUN, IDLE, DONE). -/
inductive State where
  | first_run : State
  | idle : State
  | done : State
  deriving DecidableEq

/-- One evaluation of a single task on one tick of the main while-True loop
(weather_chimes_code.py lines 156-246): the outer test is
`current_time % CYCLE == OFFSET or state == FIRST_RUN`, the inner test is
`state in (IDLE, FIRST_RUN)`; the body runs (the Bool component) exactly when
both hold, after which the state becomes DONE; when due but DONE nothing
changes; a failed outer test sets the state to IDLE. -/
def taskStep (c o : ℕ) (s : State) (t : ℕ) : State × Bool :=
  if t % c = o ∨ s = State.first_run then
    if s = State.idle ∨ s = State.first_run then (State.done, true)
    else (s, false)
  else (State.idle, false)

/-- The times at which a task body runs when the loop processes the given
tick sequence (successive values of `time.time()`) starting from state s. -/
def runsOf (c o : ℕ) (s : State) : List ℕ → List ℕ
  | [] => []
  | t :: ts =>
    if (taskStep c o s t).2 then t :: runsOf c o (taskStep c o s t).1 ts
    else runsOf c o (taskStep c o s t).1 ts

/-- Membership of tick t in the half-open congruence window
[k*c + o, (k+1)*c + o) of integer index k. -/
def inWindowB (c o : ℕ) (k : ℤ) (t : ℕ) : Bool :=
  decide ((k * c + o : ℤ) ≤ (t : ℤ)) && decide ((t : ℤ) < (k + 1) * c + o)

/-- TASK 0 "heartbeat": 2-second cycle. -/
def TASK_0_CYCLE : ℕ := 2

def TASK_0_OFFSET : ℕ := 0

def task_0_state_init : State := State.first_run

/-- TASK 1 "display clock": 1-minute cycle. -/
def TASK_1_CYCLE : ℕ := 1 * 60

def TASK_1_OFFSET : ℕ := 0

def task_1_state_init : State := State.first_run

/-- TASK 2 "play wind-related chimes": 3-second cycle. -/
def TASK_2_CYCLE : ℕ := 3

def TASK_2_OFFSET : ℕ := 0

def task_2_state_init : State := State.first_run

/-- TASK 3 "update clock and weather": 20-minute cycle, 12 minutes offset. -/
def TASK_3_CYCLE : ℕ := 20 * 60

def TASK_3_OFFSET : ℕ := 12 * 60

def task_3_state_init : State := State.first_run

/-- map_range from the simpleio library imported at line 27 of
weather_chimes_code.py: affine map of x from [in_min, in_max] to
[out_min, out_max], clamped to the output interval (in either direction). -/
def map_range (x in_min in_max out_min out_max : ℚ) : ℚ :=
  let mapped := (x - in_min) * (out_max - out_min) / (in_max - in_min) + out_min
  if out_min ≤ out_max then max (min mapped out_max) out_min
  else min (max mapped out_max) out_min

/-- Python int() truncation toward zero, on an exact rational. -/
def pyInt (q : ℚ) : ℤ := if 0 ≤ q then ⌊q⌋ else -⌊-q⌋

/-- note_amplitude = map_range(corr_wifi.wind_speed, 0, 100, 0.6, 1.0)
(weather_chimes_code.py lines 154 and 238). -/
def note_amplitude (wind_speed : ℚ) : ℚ := map_range wind_speed 0 100 0.6 1

/-- number_to_play = int(map_range(corr_wifi.wind_speed, 0, 50, 5, 30))
(weather_chimes_code.py line 196). -/
def number_to_play (wind_speed : ℚ) : ℤ := pyInt (map_range wind_speed 0 50 5 30)

/-- Outcome of random.randrange(number_to_play) at line 197: a uniform raw
draw r reduced modulo the (positive) bound, so the possible outcomes are
exactly 0, 1, ..., number_to_play - 1. -/
def playCount (wind_speed : ℚ) (r : ℕ) : ℕ := r % (number_to_play wind_speed).toNat

/-- The scale indices struck by one TASK 2 invocation that plays `count`
notes: each note is an independent random.choice(chime.scale) (line 198),
modelled as an arbitrary draw `picks i` reduced modulo the scale length. -/
def task2_note_indices (L count : ℕ) (picks : ℕ → ℕ) : List ℕ :=
  (List.range count).map (fun i => picks i % L)

/-- The (note, amplitude) pairs sent to chime.strike by one TASK 2
invocation: every strike passes the same module-level note_amplitude
(line 198). -/
def task2_strikes (scale : List ℕ) (amp : ℚ) (count : ℕ) (picks : ℕ → ℕ) :
    List (ℕ × ℚ) :=
  (List.range count).map (fun i => (scale.getD (picks i % scale.length) 0, amp))

/-- The sleep after each TASK 2 strike (lines 199-202):
random.randrange(1, 3) * map_range(wind_speed, 0, 50, 0.6, 0); the
randrange(1, 3) outcome {1, 2} is modelled as 1 + r % 2. -/
def note_sleep (wind_speed : ℚ) (r : ℕ) : ℚ :=
  ((1 + r % 2 : ℕ) : ℚ) * map_range wind_speed 0 50 0.6 0

/-- Modelled from the spec: the circular random-walk index sequence
[i0, (i0+d) mod L, (i0+2d) mod L, ...] of n entries that the spec
WindMusicGenerator is said to produce; used only to compare the gesture shape of the spec against the embedded TASK 2 behavior. -/
def walk_indices (L i0 : ℕ) (d : ℤ) (n : ℕ) : List ℕ :=
  (List.range n).map (fun j => (((i0 : ℤ) + d * (j : ℤ)) % (L : ℤ)).toNat)

/-- Whether a finite index list is a contiguous circular walk on a scale of
length L with some start i0 and direction +1 or -1 (the "Walk" of the spec). -/
def isCircularWalk (L : ℕ) (l : List ℕ) : Bool :=
  (List.range L).any (fun i0 =>
    decide (l = walk_indices L i0 1 l.length) ||
    decide (l = walk_indices L i0 (-1) l.length))

/-- A concrete random-choice stream for refutations: first draw picks scale
index 0, every later draw picks scale index 5. -/
def cex_picks : ℕ → ℕ := fun i => if i = 0 then 0 else 5

namespace WindColors

/-- WindColors.NOAA (weather_chimes_code.py lines 49-63): pairs of wind
speed minimum and color value. -/
def NOAA : List (ℚ × ℕ) :=
  [(0, 0x0065CC), (1, 0x3365FF), (4, 0x33CCFF), (8, 0x00FFFF), (13, 0x33FFCC),
   (19, 0x00CC00), (25, 0x01FF00), (32, 0xFFFFCC), (39, 0xFFFF00),
   (47, 0xFFCC65), (55, 0xFF9A00), (64, 0xFF6565), (75, 0xFF65FF)]

end WindColors

/-- The TASK 3 color-selection loop (weather_chimes_code.py lines 233-236):
`for _, color in enumerate(WindColors.NOAA): if wind_speed >= color[0]:
wind_speed_color = color[1]`.  The accumulator is the current value of the
wind_speed_color variable, `none` when it has never been assigned. -/
def wind_speed_color_loop (speed : ℚ) : Option ℕ → List (ℚ × ℕ) → Option ℕ
  | acc, [] => acc
  | acc, mc :: rest =>
    wind_speed_color_loop speed (if mc.1 ≤ speed then some mc.2 else acc) rest

/-- The color left in wind_speed_color after the TASK 3 loop on a fresh run
(variable initially unassigned). -/
def wind_speed_color (table : List (ℚ × ℕ)) (speed : ℚ) : Option ℕ :=
  wind_speed_color_loop speed none table

/-- The eight compass point strings of the wind_direction property of the
OpenWeather variant (lines 120-125). -/
def compass_points : List String := ["N", "NE", "E", "SE", "S", "SW", "W", "NW"]

/-- The Python % operation for a positive right operand, on exact rationals:
a - b * floor(a / b), which lies in [0, b). -/
def pymod (a b : ℚ) : ℚ := a - b * ⌊a / b⌋

/-- The list index computed by the wind_direction property:
int(((direction + 22.5) % 360) / 45). -/
def wind_direction_index (d : ℚ) : ℤ := pyInt (pymod (d + 22.5) 360 / 45)

/-- The wind_direction property of the OpenWeather variant: look the index
up in the eight compass points. -/
def wind_direction (d : ℚ) : String :=
  compass_points.getD (wind_direction_index d).toNat "N"

/-- Python round half-to-even at integer precision, on an exact rational. -/
def pyRound0 (q : ℚ) : ℚ :=
  if q - ⌊q⌋ < 1 / 2 then (⌊q⌋ : ℚ)
  else if 1 / 2 < q - ⌊q⌋ then (⌊q⌋ + 1 : ℤ)
  else if ⌊q⌋ % 2 = 0 then (⌊q⌋ : ℚ) else (⌊q⌋ + 1 : ℤ)

/-- Python round(x, 1). -/
def pyRound1 (q : ℚ) : ℚ := pyRound0 (q * 10) / 10

/-- The stored weather fields of the OpenWeather variant
(_weather_temp_f, _weather_humid, _weather_wind_speed, _weather_wind_gusts,
_weather_wind_direction, _weather_desc). -/
structure OWFields where
  weather_temp_f : ℚ
  weather_humid : ℚ
  weather_wind_speed : ℚ
  weather_wind_gusts : ℚ
  weather_wind_direction : ℚ
  weather_desc : String

/-- The parts of the OpenWeatherMap JSON response that update_weather
reads; wind.gust is optional (its access sits in a try/except). -/
structure OWResponse where
  main_temp : ℚ
  main_humidity : ℚ
  wind_speed : ℚ
  wind_gust : Option ℚ
  wind_deg : ℚ
  weather_main : String
  weather_desc : String

/-- update_weather of the OpenWeather variant (lines 153-196): the
requests.get call is modelled as an Except value; a raise is caught by the
try/except of the method (printed, not re-raised), leaving response = None so the
extraction block is skipped and every stored field keeps its previous value.
The result is Except so that a hypothetical propagation would be .error. -/
def update_weather_openweather (prev : OWFields) (fetch : Except String OWResponse) :
    Except String OWFields :=
  match fetch with
  | Except.error _ => Except.ok prev
  | Except.ok r =>
    Except.ok
      { weather_temp_f := pyRound1 r.main_temp
        weather_humid := pyRound1 r.main_humidity
        weather_wind_speed := pyRound0 r.wind_speed
        weather_wind_gusts :=
          match r.wind_gust with
          | some g => pyRound0 g
          | none => 0
        weather_wind_direction := pyRound0 r.wind_deg
        weather_desc := r.weather_main ++ ": " ++ r.weather_desc }

/-- update_weather of weather_chimes_wifi.py (lines 121-143): only
_weather_wind_speed is stored, rounded to 0 decimals; a raised fetch is
caught and the previous value kept. -/
def update_weather (prev : ℚ) (fetch : Except String ℚ) : Except String ℚ :=
  match fetch with
  | Except.error _ => Except.ok prev
  | Except.ok v => Except.ok (pyRound0 v)

/-! Scheduler lemmas. -/

lemma taskStep_first_run (c o t : ℕ) :
    taskStep c o State.first_run t = (State.done, true) := by
  simp [taskStep]

lemma taskStep_fst_ne_first_run (c o : ℕ) (s : State) (t : ℕ) :
    (taskStep c o s t).1 ≠ State.first_run := by
  unfold taskStep
  split
  · split
    · simp
    · rename_i h2
      intro hs
      exact h2 (Or.inr hs)
  · simp

lemma taskStep_ran_due (c o : ℕ) (s : State) (t : ℕ) (hs : s ≠ State.first_run)
    (h : (taskStep c o s t).2 = true) : t % c = o := by
  unfold taskStep at h
  split at h
  · rename_i h1
    rcases h1 with h1 | h1
    · exact h1
    · exact absurd h1 hs
  · simp at h

lemma runsOf_nil (c o : ℕ) (s : State) : runsOf c o s [] = [] := rfl

lemma runsOf_cons (c o : ℕ) (s : State) (t : ℕ) (ts : List ℕ) :
    runsOf c o s (t :: ts) =
      if (taskStep c o s t).2 then t :: runsOf c o (taskStep c o s t).1 ts
      else runsOf c o (taskStep c o s t).1 ts := rfl

lemma runsOf_sublist (c o : ℕ) (s : State) (ticks : List ℕ) :
    (runsOf c o s ticks).Sublist ticks := by
  induction ticks generalizing s with
  | nil => simp [runsOf_nil]
  | cons t ts ih =>
    rw [runsOf_cons]
    by_cases h : (taskStep c o s t).2 = true
    · rw [if_pos h]
      exact (ih _).cons₂ t
    · rw [if_neg h]
      exact (ih _).cons t

lemma runsOf_congr_of_ne (c o : ℕ) (ticks : List ℕ) :
    ∀ s : State, s ≠ State.first_run → ∀ v ∈ runsOf c o s ticks, v % c = o := by
  induction ticks with
  | nil =>
    intro s _ v hv
    simp [runsOf_nil] at hv
  | cons t ts ih =>
    intro s hs v hv
    rw [runsOf_cons] at hv
    by_cases h : (taskStep c o s t).2 = true
    · rw [if_pos h] at hv
      rcases List.mem_cons.mp hv with rfl | hv2
      · exact taskStep_ran_due c o s v hs h
      · exact ih _ (taskStep_fst_ne_first_run c o s t) v hv2
    · rw [if_neg h] at hv
      exact ih _ (taskStep_fst_ne_first_run c o s t) v hv

lemma runsOf_tail_congr (c o : ℕ) (s : State) (ticks : List ℕ) (v : ℕ)
    (rest : List ℕ) (hrun : runsOf c o s ticks = v :: rest) :
    ∀ u ∈ rest, u % c = o := by
  by_cases hfr : s = State.first_run
  · subst hfr
    cases ticks with
    | nil => simp [runsOf_nil] at hrun
    | cons t ts =>
      rw [runsOf_cons, taskStep_first_run] at hrun
      simp only [if_pos] at hrun
      injection hrun with h1 h2
      rw [← h2]
      exact runsOf_congr_of_ne c o ts State.done (by simp)
  · intro u hu
    exact runsOf_congr_of_ne c o ticks s hfr u
      (by rw [hrun]; exact List.mem_cons_of_mem v hu)

lemma inWindowB_iff (c o : ℕ) (k : ℤ) (t : ℕ) :
    inWindowB c o k t = true ↔ (k * c + o : ℤ) ≤ (t : ℤ) ∧ (t : ℤ) < (k + 1) * c + o := by
  simp [inWindowB]

lemma due_in_window_eq (c o : ℕ) (hc : 0 < c) (k : ℤ) (v : ℕ) (hmod : v % c = o)
    (hw : inWindowB c o k v = true) : (v : ℤ) = k * c + o := by
  obtain ⟨h1, h2⟩ := (inWindowB_iff c o k v).mp hw
  have hq : c * (v / c) + o = v := by
    rw [← hmod]
    exact Nat.div_add_mod v c
  have hvz : (v : ℤ) = (c : ℤ) * ((v / c : ℕ) : ℤ) + (o : ℤ) := by
    exact_mod_cast hq.symm
  have hcz : (0 : ℤ) < (c : ℤ) := by exact_mod_cast hc
  have hq1 : k ≤ ((v / c : ℕ) : ℤ) := by
    have h1' : k * (c : ℤ) ≤ ((v / c : ℕ) : ℤ) * (c : ℤ) := by
      rw [hvz] at h1
      linarith [h1, mul_comm (c : ℤ) ((v / c : ℕ) : ℤ)]
    exact le_of_mul_le_mul_right h1' hcz
  have hq2 : ((v / c : ℕ) : ℤ) < k + 1 := by
    have h2' : ((v / c : ℕ) : ℤ) * (c : ℤ) < (k + 1) * (c : ℤ) := by
      rw [hvz] at h2
      linarith [h2, mul_comm (c : ℤ) ((v / c : ℕ) : ℤ)]
    exact lt_of_mul_lt_mul_right h2' (le_of_lt hcz)
  have hk : ((v / c : ℕ) : ℤ) = k := by omega
  rw [hvz, hk]
  ring

lemma congr_window_unique (c o : ℕ) (hc : 0 < c) (k : ℤ) (x y : ℕ)
    (hx : x % c = o) (hy : y % c = o) (hxw : inWindowB c o k x = true)
    (hyw : inWindowB c o k y = true) : x = y := by
  have h1 := due_in_window_eq c o hc k x hx hxw
  have h2 := due_in_window_eq c o hc k y hy hyw
  omega

lemma filter_window_le_one_aux (c o : ℕ) (hc : 0 < c) (k : ℤ) (l : List ℕ)
    (hpw : l.Pairwise (· < ·))
    (htail : ∀ v rest, l = v :: rest → ∀ u ∈ rest, u % c = o) :
    (l.filter (inWindowB c o k)).length ≤ 1 := by
  cases l with
  | nil => simp
  | cons v rest =>
    have hco : ∀ u ∈ rest, u % c = o := htail v rest rfl
    have hpr : rest.Pairwise (· < ·) := (List.pairwise_cons.mp hpw).2
    have hvlt : ∀ u ∈ rest, v < u := (List.pairwise_cons.mp hpw).1
    have hrest1 : (rest.filter (inWindowB c o k)).length ≤ 1 := by
      rcases hFr : rest.filter (inWindowB c o k) with _ | ⟨x, r1⟩
      · simp
      rcases r1 with _ | ⟨y, r2⟩
      · simp
      exfalso
      have hxm : x ∈ rest.filter (inWindowB c o k) := by
        rw [hFr]; exact List.mem_cons_self _ _
      have hym : y ∈ rest.filter (inWindowB c o k) := by
        rw [hFr]; simp
      have hpf : (rest.filter (inWindowB c o k)).Pairwise (· < ·) :=
        hpr.filter _
      rw [hFr] at hpf
      have hxy : x < y :=
        (List.pairwise_cons.mp hpf).1 y (List.mem_cons_self _ _)
      have hx := List.mem_filter.mp hxm
      have hy := List.mem_filter.mp hym
      have := congr_window_unique c o hc k x y (hco x hx.1) (hco y hy.1) hx.2 hy.2
      omega
    by_cases hvw : inWindowB c o k v = true
    · have hFe : rest.filter (inWindowB c o k) = [] := by
        by_contra hne
        rcases List.exists_mem_of_ne_nil _ hne with ⟨u, hu⟩
        have hu2 := List.mem_filter.mp hu
        have hue : (u : ℤ) = k * c + o :=
          due_in_window_eq c o hc k u (hco u hu2.1) hu2.2
        have hvb := (inWindowB_iff c o k v).mp hvw
        have hlt : v < u := hvlt u hu2.1
        omega
      rw [List.filter_cons_of_pos hvw, hFe]
      simp
    · rw [List.filter_cons_of_neg (by simpa using hvw)]
      exact hrest1

lemma window_runs_le_one (c o : ℕ) (hc : 0 < c) (s : State) (ticks : List ℕ)
    (hmono : ticks.Pairwise (· < ·)) (k : ℤ) :
    ((runsOf c o s ticks).filter (inWindowB c o k)).length ≤ 1 :=
  filter_window_le_one_aux c o hc k (runsOf c o s ticks)
    (hmono.sublist (runsOf_sublist c o s ticks))
    (fun v rest h => runsOf_tail_congr c o s ticks v rest h)

lemma due_mod (c o k : ℕ) (ho : o < c) : (k * c + o) % c = o := by
  rw [Nat.add_comm, Nat.add_mul_mod_self_right]
  exact Nat.mod_eq_of_lt ho

lemma due_cast (c o k : ℕ) : ((k * c + o : ℕ) : ℤ) = (k : ℤ) * c + o := by
  push_cast
  ring

lemma window_runs_exactly_one (c o : ℕ) (hc : 0 < c) (ho : o < c) (k : ℕ)
    (ticks : List ℕ) (hmono : ticks.Pairwise (· < ·))
    (hall : ∀ t ∈ ticks, inWindowB c o (k : ℤ) t = true)
    (hmem : k * c + o ∈ ticks) :
    ((runsOf c o State.idle ticks).filter (inWindowB c o (k : ℤ))).length = 1 := by
  cases ticks with
  | nil => simp at hmem
  | cons t ts =>
    have hhead : t = k * c + o := by
      rcases List.mem_cons.mp hmem with h | h
      · exact h.symm
      · exfalso
        have hlt : t < k * c + o := (List.pairwise_cons.mp hmono).1 _ h
        have hwt := (inWindowB_iff c o (k : ℤ) t).mp (hall t (List.mem_cons_self _ _))
        have hcast := due_cast c o k
        omega
    have hdue : t % c = o := by
      rw [hhead]
      exact due_mod c o k ho
    have hstep : taskStep c o State.idle t = (State.done, true) := by
      simp [taskStep, hdue]
    rw [runsOf_cons, hstep]
    simp only [if_pos]
    rw [List.filter_cons_of_pos (hall t (List.mem_cons_self _ _))]
    have hle := window_runs_le_one c o hc State.idle (t :: ts) hmono (k : ℤ)
    rw [runsOf_cons, hstep] at hle
    simp only [if_pos] at hle
    rw [List.filter_cons_of_pos (hall t (List.mem_cons_self _ _))] at hle
    simp only [List.length_cons] at hle ⊢
    omega

/-- C1: corrected.  The latch does guarantee never-twice, the first due tick
in Idle/FirstRun runs the body, Done suppresses further due ticks, and a
not-due tick resets to Idle; and a window entered in Idle whose due tick is
reached fires exactly once.  But exactly-once does not hold for every
reached window: the counterexample theorem shows a reached window with zero
executions. -/
theorem scheduler_latch (c o : ℕ) (hc : 0 < c) (ho : o < c) (ticks : List ℕ)
    (hmono : ticks.Pairwise (· < ·)) :
    (∀ (s : State) (k : ℤ),
        ((runsOf c o s ticks).filter (inWindowB c o k)).length ≤ 1)
    ∧ (∀ (s : State) (t : ℕ), s = State.idle ∨ s = State.first_run → t % c = o →
        taskStep c o s t = (State.done, true))
    ∧ (∀ t : ℕ, t % c = o → taskStep c o State.done t = (State.done, false))
    ∧ (∀ (s : State) (t : ℕ), s ≠ State.first_run → t % c ≠ o →
        taskStep c o s t = (State.idle, false))
    ∧ (∀ k : ℕ, (∀ t ∈ ticks, inWindowB c o (k : ℤ) t = true) →
        k * c + o ∈ ticks →
        ((runsOf c o State.idle ticks).filter (inWindowB c o (k : ℤ))).length = 1) := by
  refine ⟨?_, ?_, ?_, ?_, ?_⟩
  · intro s k
    exact window_runs_le_one c o hc s ticks hmono k
  · intro s t hs hdue
    rcases hs with rfl | rfl
    · simp [taskStep, hdue]
    · exact taskStep_first_run c o t
  · intro t hdue
    simp [taskStep, hdue]
  · intro s t hs hdue
    simp [taskStep, hdue, hs]
  · intro k hall hmem
    exact window_runs_exactly_one c o hc ho k ticks hmono hall hmem

/-- Witness for scheduler_latch at cycle 2 (the TASK 0 cycle), offset 0, ticks
0, 1, 2, 3. -/
theorem scheduler_latch_w :
    (0 < 2 ∧ 0 < 2 ∧ ([0, 1, 2, 3] : List ℕ).Pairwise (· < ·))
    ∧ ((∀ (s : State) (k : ℤ),
          ((runsOf 2 0 s [0, 1, 2, 3]).filter (inWindowB 2 0 k)).length ≤ 1)
       ∧ (∀ (s : State) (t : ℕ), s = State.idle ∨ s = State.first_run →
            t % 2 = 0 → taskStep 2 0 s t = (State.done, true))
       ∧ (∀ t : ℕ, t % 2 = 0 → taskStep 2 0 State.done t = (State.done, false))
       ∧ (∀ (s : State) (t : ℕ), s ≠ State.first_run → t % 2 ≠ 0 →
            taskStep 2 0 s t = (State.idle, false))
       ∧ (∀ k : ℕ, (∀ t ∈ [0, 1, 2, 3], inWindowB 2 0 (k : ℤ) t = true) →
            k * 2 + 0 ∈ [0, 1, 2, 3] →
            ((runsOf 2 0 State.idle [0, 1, 2, 3]).filter
              (inWindowB 2 0 (k : ℤ))).length = 1)) :=
  ⟨⟨by decide, by decide, by decide⟩,
    scheduler_latch 2 0 (by decide) (by decide) [0, 1, 2, 3] (by decide)⟩

/-- Counterexample for C1 as stated: the TASK 0 cycle 2 and offset 0 on the
tick sequence 1, 2, 3, 4 (the first loop iteration happens at an odd
second).  The FirstRun latch fires the body at time 1 and leaves the state
Done, so the due tick 2 of window [2, 4) is suppressed; that window is
reached by ticks 2 and 3 yet the body never executes in it. -/
theorem scheduler_latch_cex :
    runsOf TASK_0_CYCLE TASK_0_OFFSET State.first_run [1, 2, 3, 4] = [1, 4]
    ∧ inWindowB TASK_0_CYCLE TASK_0_OFFSET 1 2 = true
    ∧ inWindowB TASK_0_CYCLE TASK_0_OFFSET 1 3 = true
    ∧ ((runsOf TASK_0_CYCLE TASK_0_OFFSET State.first_run [1, 2, 3, 4]).filter
        (inWindowB TASK_0_CYCLE TASK_0_OFFSET 1)).length = 0 := by
  decide

/-- C8: confirmed.  Each of the four registered tasks starts in FIRST_RUN,
and from FIRST_RUN the step runs the body whatever the value of
current_time mod cycle, because readiness is the disjunction
`time mod cycle == offset or state == FIRST_RUN`. -/
theorem first_iteration_fires (t : ℕ) :
    taskStep TASK_0_CYCLE TASK_0_OFFSET task_0_state_init t = (State.done, true)
    ∧ taskStep TASK_1_CYCLE TASK_1_OFFSET task_1_state_init t = (State.done, true)
    ∧ taskStep TASK_2_CYCLE TASK_2_OFFSET task_2_state_init t = (State.done, true)
    ∧ taskStep TASK_3_CYCLE TASK_3_OFFSET task_3_state_init t = (State.done, true)
    ∧ (∀ c o : ℕ, taskStep c o State.first_run t = (State.done, true)) :=
  ⟨taskStep_first_run _ _ t, taskStep_first_run _ _ t, taskStep_first_run _ _ t,
    taskStep_first_run _ _ t, fun c o => taskStep_first_run c o t⟩

/-! map_range lemmas. -/

lemma map_range_bounds (x in_min in_max out_min out_max : ℚ)
    (h : out_min ≤ out_max) :
    out_min ≤ map_range x in_min in_max out_min out_max
    ∧ map_range x in_min in_max out_min out_max ≤ out_max := by
  unfold map_range
  rw [if_pos h]
  exact ⟨le_max_right _ _, max_le ((min_le_right _ _)) h⟩

lemma map_range_bounds_desc (x in_min in_max out_min out_max : ℚ)
    (h : ¬ out_min ≤ out_max) :
    out_max ≤ map_range x in_min in_max out_min out_max
    ∧ map_range x in_min in_max out_min out_max ≤ out_min := by
  unfold map_range
  rw [if_neg h]
  exact ⟨le_min (le_max_right _ _) (le_of_lt (lt_of_not_le h)),
    min_le_right _ _⟩

lemma note_amplitude_eq (w : ℚ) :
    note_amplitude w = max (min (w / 250 + 3 / 5) 1) (3 / 5) := by
  unfold note_amplitude map_range
  rw [if_pos (by norm_num)]
  ring_nf

/-- C3: corrected.  The strike amplitude is map_range(wind_speed, 0, 100,
0.6, 1.0): monotone non-decreasing, 0.6 (not 0.4) for wind_speed ≤ 0, 1.0
only from wind_speed ≥ 100 (not 50), 0.7 at wind_speed 25, and every strike
of one TASK 2 invocation passes the same shared note_amplitude value. -/
theorem amplitude_map (a b : ℚ) (hab : a ≤ b) :
    note_amplitude a ≤ note_amplitude b
    ∧ (∀ w : ℚ, w ≤ 0 → note_amplitude w = 3 / 5)
    ∧ (∀ w : ℚ, 100 ≤ w → note_amplitude w = 1)
    ∧ note_amplitude 25 = 7 / 10
    ∧ (∀ (ws : ℚ) (scale : List ℕ) (count : ℕ) (picks : ℕ → ℕ),
        ∀ p ∈ task2_strikes scale (note_amplitude ws) count picks,
          p.2 = note_amplitude ws) := by
  refine ⟨?_, ?_, ?_, ?_, ?_⟩
  · rw [note_amplitude_eq, note_amplitude_eq]
    exact max_le_max (min_le_min (by linarith) le_rfl) le_rfl
  · intro w hw
    rw [note_amplitude_eq]
    have h1 : w / 250 + 3 / 5 ≤ 3 / 5 := by linarith
    rw [min_eq_left (by linarith), max_eq_right h1]
  · intro w hw
    rw [note_amplitude_eq]
    have h1 : (1 : ℚ) ≤ w / 250 + 3 / 5 := by linarith
    rw [min_eq_right h1, max_eq_left (by norm_num)]
  · rw [note_amplitude_eq]
    norm_num
  · intro ws scale count picks p hp
    unfold task2_strikes at hp
    rcases List.mem_map.mp hp with ⟨i, _, hi⟩
    rw [← hi]

/-- Witness for amplitude_map at a = 0, b = 25. -/
theorem amplitude_map_w :
    ((0 : ℚ) ≤ 25)
    ∧ (note_amplitude 0 ≤ note_amplitude 25
       ∧ (∀ w : ℚ, w ≤ 0 → note_amplitude w = 3 / 5)
       ∧ (∀ w : ℚ, 100 ≤ w → note_amplitude w = 1)
       ∧ note_amplitude 25 = 7 / 10
       ∧ (∀ (ws : ℚ) (scale : List ℕ) (count : ℕ) (picks : ℕ → ℕ),
           ∀ p ∈ task2_strikes scale (note_amplitude ws) count picks,
             p.2 = note_amplitude ws)) :=
  ⟨by norm_num, amplitude_map 0 25 (by norm_num)⟩

/-- Counterexample for C3 as stated: the amplitude computed by the code at wind speed 0 is
0.6, not the claimed 0.4, and at wind speed 50 it is 0.8, not the claimed
saturation value 1.0. -/
theorem amplitude_map_cex :
    note_amplitude 0 = 3 / 5 ∧ (3 / 5 : ℚ) ≠ 2 / 5
    ∧ note_amplitude 50 = 4 / 5 ∧ (4 / 5 : ℚ) ≠ 1 := by
  refine ⟨?_, by norm_num, ?_, by norm_num⟩
  · rw [note_amplitude_eq]; norm_num
  · rw [note_amplitude_eq]; norm_num

/-! number_to_play lemmas. -/

lemma number_to_play_bounds (ws : ℚ) :
    5 ≤ number_to_play ws ∧ number_to_play ws ≤ 30 := by
  unfold number_to_play pyInt
  obtain ⟨h1, h2⟩ := map_range_bounds ws 0 50 5 30 (by norm_num)
  rw [if_pos (by linarith)]
  constructor
  · exact Int.le_floor.mpr (by exact_mod_cast h1)
  · have h3 : ((⌊map_range ws 0 50 5 30⌋ : ℤ) : ℚ) ≤ 30 :=
      le_trans (Int.floor_le _) h2
    exact_mod_cast h3

lemma number_to_play_toNat_pos (ws : ℚ) : 0 < (number_to_play ws).toNat := by
  have h := (number_to_play_bounds ws).1
  omega

lemma number_to_play_toNat_le (ws : ℚ) : (number_to_play ws).toNat ≤ 30 := by
  have h := (number_to_play_bounds ws).2
  omega

lemma number_to_play_at_zero : number_to_play 0 = 5 := by
  unfold number_to_play map_range pyInt
  norm_num

lemma number_to_play_at_fifty : number_to_play 50 = 30 := by
  unfold number_to_play map_range pyInt
  norm_num

/-- C10: confirmed.  int(map_range(wind_speed, 0, 50, 5, 30)) always lies in
[5, 30] because map_range clamps at its domain ends, so the
random.randrange bound in TASK 2 is positive (the call cannot raise), and
the loop strikes at most 29 notes. -/
theorem number_to_play_safe (ws : ℚ) :
    5 ≤ number_to_play ws
    ∧ number_to_play ws ≤ 30
    ∧ 0 < (number_to_play ws).toNat
    ∧ (∀ r : ℕ, playCount ws r ≤ 29) := by
  refine ⟨(number_to_play_bounds ws).1, (number_to_play_bounds ws).2,
    number_to_play_toNat_pos ws, ?_⟩
  intro r
  have h1 : playCount ws r < (number_to_play ws).toNat :=
    Nat.mod_lt r (number_to_play_toNat_pos ws)
  have h2 := number_to_play_toNat_le ws
  omega

/-- C7: corrected.  The number of notes struck is random.randrange
(number_to_play): its possible outcomes are exactly the integers of the
half-open range [0, number_to_play), where number_to_play =
int(map_range(wind_speed, 0, 50, 5, 30)) is independent of the scale
length; the bound itself is never attained, and silence (0 notes) is a
possible outcome (probability 1/number_to_play). -/
theorem play_count_range (ws : ℚ) :
    playCount ws 0 = 0
    ∧ (∀ k : ℕ, k < (number_to_play ws).toNat → playCount ws k = k)
    ∧ (∀ r : ℕ, playCount ws r < (number_to_play ws).toNat) := by
  refine ⟨Nat.zero_mod _, ?_, ?_⟩
  · intro k hk
    exact Nat.mod_eq_of_lt hk
  · intro r
    exact Nat.mod_lt r (number_to_play_toNat_pos ws)

/-- Witness for play_count_range at wind speed 0 and draw 3
(number_to_play 0 = 5, so 3 is inside the range). -/
theorem play_count_range_w :
    (3 < (number_to_play 0).toNat) ∧ playCount 0 3 = 3 :=
  ⟨by rw [number_to_play_at_zero]; decide,
    (play_count_range 0).2.1 3 (by rw [number_to_play_at_zero]; decide)⟩

/-- Counterexample for C7 as stated: at wind speed 50 the bound is 30, so
the draw 29 is a possible play count; 29 exceeds floor(L/2) = 4 for the
scale length L = 8 used by the spec itself, so the play count is not bounded by the
claimed gesture length. -/
theorem play_count_cex :
    number_to_play 50 = 30
    ∧ playCount 50 29 = 29
    ∧ 29 > 8 / 2 := by
  refine ⟨number_to_play_at_fifty, ?_, by decide⟩
  unfold playCount
  rw [number_to_play_at_fifty]
  decide

/-- C2: corrected.  TASK 2 draws every note independently and uniformly
from the whole scale (random.choice), so all struck indices lie in [0, L)
and there are exactly as many as the drawn play count — but that count is
random.randrange(int(map_range(wind_speed, 0, 50, 5, 30))), not floor(L/2),
and the indices are a scattered set, not a contiguous circular walk. -/
theorem gesture_notes (L count : ℕ) (picks : ℕ → ℕ) (hL : 0 < L) :
    (task2_note_indices L count picks).length = count
    ∧ (∀ i ∈ task2_note_indices L count picks, i < L)
    ∧ (∀ (ws : ℚ) (r : ℕ), playCount ws r < (number_to_play ws).toNat) := by
  refine ⟨by simp [task2_note_indices], ?_, ?_⟩
  · intro i hi
    rcases List.mem_map.mp hi with ⟨j, _, hj⟩
    rw [← hj]
    exact Nat.mod_lt _ hL
  · intro ws r
    exact Nat.mod_lt r (number_to_play_toNat_pos ws)

/-- Witness for gesture_notes on a scale of length 8 with two draws. -/
theorem gesture_notes_w :
    (0 < 8)
    ∧ ((task2_note_indices 8 2 cex_picks).length = 2
       ∧ (∀ i ∈ task2_note_indices 8 2 cex_picks, i < 8)
       ∧ (∀ (ws : ℚ) (r : ℕ), playCount ws r < (number_to_play ws).toNat)) :=
  ⟨by decide, gesture_notes 8 2 cex_picks (by decide)⟩

/-- Counterexample for C2 as stated: with scale length 8 and wind speed 0
the play count can be 2 (a possible randrange draw), not floor(8/2) = 4,
and the struck indices can be 0 followed by 5, which is not a contiguous
circular walk in either direction from any start. -/
theorem gesture_notes_cex :
    playCount 0 2 = 2
    ∧ task2_note_indices 8 2 cex_picks = [0, 5]
    ∧ (2 : ℕ) ≠ 8 / 2
    ∧ isCircularWalk 8 [0, 5] = false := by
  refine ⟨?_, by decide, by decide, by decide⟩
  unfold playCount
  rw [number_to_play_at_zero]
  decide

lemma map_range_tempo_at_high (ws : ℚ) (hws : 50 ≤ ws) :
    map_range ws 0 50 0.6 0 = 0 := by
  unfold map_range
  rw [if_neg (by norm_num)]
  have hm : (ws - 0) * ((0 : ℚ) - 0.6) / (50 - 0) + 0.6 ≤ 0 := by
    have : (3 : ℚ) / 5 ≤ ws * (3 / 5) / 50 := by
      rw [div_le_div_iff₀ (by norm_num) (by norm_num)]
      nlinarith
    norm_num
    linarith
  rw [max_eq_right hm, min_eq_left (by norm_num)]

/-- C4: corrected.  The delay between gestures is fixed by the scheduler:
TASK 2 has a constant 3-second cycle, so (after the first run) gestures
happen only at seconds divisible by 3, e.g. at 0, 3, 6, 9, 12 over the
first thirteen seconds — wind speed never changes that.  What wind speed
drives is the sleep after each struck note, randrange(1, 3) *
map_range(wind_speed, 0, 50, 0.6, 0): it is 0 from 50 mph up and always
lies in [0, 1.2] seconds. -/
theorem gesture_pacing (ticks : List ℕ) :
    (∀ v ∈ runsOf TASK_2_CYCLE TASK_2_OFFSET State.idle ticks, v % 3 = 0)
    ∧ runsOf TASK_2_CYCLE TASK_2_OFFSET State.first_run (List.range 13) =
        [0, 3, 6, 9, 12]
    ∧ (∀ (ws : ℚ) (r : ℕ), 50 ≤ ws → note_sleep ws r = 0)
    ∧ (∀ (ws : ℚ) (r : ℕ), 0 ≤ note_sleep ws r ∧ note_sleep ws r ≤ 6 / 5) := by
  refine ⟨?_, by decide, ?_, ?_⟩
  · intro v hv
    exact runsOf_congr_of_ne TASK_2_CYCLE TASK_2_OFFSET ticks State.idle
      (by decide) v hv
  · intro ws r hws
    unfold note_sleep
    rw [map_range_tempo_at_high ws hws, mul_zero]
  · intro ws r
    obtain ⟨h0, h1⟩ := map_range_bounds_desc ws 0 50 0.6 0 (by norm_num)
    have hc : ((1 + r % 2 : ℕ) : ℚ) ≤ 2 := by
      have : r % 2 ≤ 1 := Nat.le_of_lt_succ (Nat.mod_lt r (by norm_num))
      exact_mod_cast by omega
    have hc0 : (0 : ℚ) ≤ ((1 + r % 2 : ℕ) : ℚ) := by positivity
    constructor
    · exact mul_nonneg hc0 h0
    · calc ((1 + r % 2 : ℕ) : ℚ) * map_range ws 0 50 0.6 0
          ≤ 2 * (0.6 : ℚ) := mul_le_mul hc h1 h0 (by norm_num)
      _ = 6 / 5 := by norm_num

/-- Witness for gesture_pacing at wind speed 50 and draw 0. -/
theorem gesture_pacing_w :
    ((50 : ℚ) ≤ 50) ∧ note_sleep 50 0 = 0 :=
  ⟨by norm_num, (gesture_pacing []).2.2.1 50 0 (by norm_num)⟩

/-- Counterexample for C4 as stated: at wind speed 0.5 (below 1 mph) the
embedded loop still runs TASK 2 at seconds 0 and 3 — the gap before the
next gesture is the 3-second task cycle, not the claimed 30 seconds (and no
wind-mapped 2.0..0.01-second delay with jitter exists anywhere in the
loop). -/
theorem gesture_pacing_cex :
    ((1 : ℚ) / 2 < 1)
    ∧ runsOf TASK_2_CYCLE TASK_2_OFFSET State.first_run [0, 1, 2, 3] = [0, 3]
    ∧ (3 - 0 : ℕ) ≠ 30 :=
  ⟨by norm_num, by decide, by decide⟩

lemma wind_color_loop_no_qualify (speed : ℚ) (table : List (ℚ × ℕ)) :
    ∀ acc : Option ℕ, (∀ f ∈ table, speed < f.1) →
      wind_speed_color_loop speed acc table = acc := by
  induction table with
  | nil =>
    intro acc _
    rfl
  | cons mc rest ih =>
    intro acc hno
    have hmc : speed < mc.1 := hno mc (List.mem_cons_self _ _)
    unfold wind_speed_color_loop
    rw [if_neg (not_le.mpr hmc)]
    exact ih acc (fun f hf => hno f (List.mem_cons_of_mem mc hf))

lemma wind_color_loop_greatest (speed : ℚ) (table : List (ℚ × ℕ)) :
    ∀ acc : Option ℕ, table.Pairwise (fun a b => a.1 < b.1) →
      ∀ e ∈ table, e.1 ≤ speed → (∀ f ∈ table, f.1 ≤ speed → f.1 ≤ e.1) →
        wind_speed_color_loop speed acc table = some e.2 := by
  induction table with
  | nil =>
    intro acc _ e he
    exact absurd he (List.not_mem_nil e)
  | cons mc rest ih =>
    intro acc hpw e he hle hg
    have hpr : rest.Pairwise (fun a b => a.1 < b.1) :=
      (List.pairwise_cons.mp hpw).2
    have hlt : ∀ f ∈ rest, mc.1 < f.1 := (List.pairwise_cons.mp hpw).1
    rcases List.mem_cons.mp he with rfl | he2
    · unfold wind_speed_color_loop
      rw [if_pos hle]
      apply wind_color_loop_no_qualify
      intro f hf
      by_contra hq
      have h1 : f.1 ≤ speed := le_of_not_lt hq
      have h2 : f.1 ≤ e.1 := hg f (List.mem_cons_of_mem e hf) h1
      exact absurd (hlt f hf) (not_lt.mpr h2)
    · unfold wind_speed_color_loop
      exact ih _ hpr e he2 hle
        (fun f hf hfle => hg f (List.mem_cons_of_mem mc hf) hfle)

/-- C5: corrected.  When at least one entry qualifies, the loop indeed
leaves the color of the entry with the greatest min_speed_mph ≤ speed_mph
(including the three toy-table examples of the claim), because later qualifying
entries of the ascending table overwrite earlier ones.  But when no entry
qualifies there is no fallback to the first entry: the loop never assigns
wind_speed_color, leaving whatever value the variable had before (none on a
fresh run). -/
theorem wind_color_selection (table : List (ℚ × ℕ)) (speed : ℚ)
    (hsorted : table.Pairwise (fun a b => a.1 < b.1)) (e : ℚ × ℕ)
    (he : e ∈ table) (hle : e.1 ≤ speed)
    (hg : ∀ f ∈ table, f.1 ≤ speed → f.1 ≤ e.1) :
    wind_speed_color table speed = some e.2
    ∧ (∀ (t : List (ℚ × ℕ)) (sp : ℚ) (acc : Option ℕ),
        (∀ f ∈ t, sp < f.1) → wind_speed_color_loop sp acc t = acc)
    ∧ wind_speed_color [(0, 10), (1, 20), (4, 30)] 3 = some 20
    ∧ wind_speed_color [(0, 10), (1, 20), (4, 30)] 0 = some 10
    ∧ wind_speed_color [(0, 10), (1, 20), (4, 30)] 5 = some 30 := by
  refine ⟨?_, ?_, by decide, by decide, by decide⟩
  · exact wind_color_loop_greatest speed table none hsorted e he hle hg
  · intro t sp acc hno
    exact wind_color_loop_no_qualify sp t acc hno

/-- Witness for wind_color_selection: the toy table of the claim at speed 3
selects the entry (1, 20). -/
theorem wind_color_selection_w :
    (([(0, 10), (1, 20), (4, 30)] : List (ℚ × ℕ)).Pairwise
        (fun a b => a.1 < b.1)
      ∧ ((1 : ℚ), 20).1 ≤ 3
      ∧ (∀ f ∈ ([(0, 10), (1, 20), (4, 30)] : List (ℚ × ℕ)),
          f.1 ≤ 3 → f.1 ≤ ((1 : ℚ), 20).1))
    ∧ wind_speed_color [(0, 10), (1, 20), (4, 30)] 3 = some ((1 : ℚ), (20 : ℕ)).2 :=
  ⟨⟨by decide, by decide, by decide⟩,
    (wind_color_selection [(0, 10), (1, 20), (4, 30)] 3 (by decide)
      ((1 : ℚ), 20) (by decide) (by decide) (by decide)).1⟩

/-- Counterexample for C5 as stated: on a fresh TASK 3 pass with a negative
wind speed no NOAA entry qualifies, and the loop yields no color at all
(in Python the variable stays unbound, raising NameError at the pixel
assignment) instead of falling back to the first-entry color 0x0065CC. -/
theorem wind_color_fallback_cex :
    wind_speed_color WindColors.NOAA (-1) = none
    ∧ wind_speed_color WindColors.NOAA (-1) ≠ some 0x0065CC := by
  refine ⟨by decide, ?_⟩
  intro h
  rw [show wind_speed_color WindColors.NOAA (-1) = none from by decide] at h
  exact Option.noConfusion h

/-- C6: confirmed.  In both wifi modules, a raise inside requests.get is
caught by the update_weather try/except, response stays None, the extraction
block is skipped, and the method returns normally: no exception escapes
(the result is never .error) and every previously stored weather field —
the wind speed in weather_chimes_wifi.py; temperature, humidity, wind
speed, gusts, direction and description in the OpenWeather variant — keeps
its previous value. -/
theorem update_weather_failure_keeps_state :
    (∀ (prev : ℚ) (e : String),
        update_weather prev (Except.error e) = Except.ok prev)
    ∧ (∀ (prev : OWFields) (e : String),
        update_weather_openweather prev (Except.error e) = Except.ok prev) :=
  ⟨fun _ _ => rfl, fun _ _ => rfl⟩

/-! wind_direction lemmas. -/

lemma pymod_nonneg (a b : ℚ) (hb : 0 < b) : 0 ≤ pymod a b := by
  unfold pymod
  have h := Int.fract_nonneg (a / b)
  unfold Int.fract at h
  have h2 : a - b * ⌊a / b⌋ = b * (a / b - ⌊a / b⌋) := by
    field_simp
  rw [h2]
  exact mul_nonneg (le_of_lt hb) h

lemma pymod_lt (a b : ℚ) (hb : 0 < b) : pymod a b < b := by
  unfold pymod
  have h := Int.fract_lt_one (a / b)
  unfold Int.fract at h
  have h2 : a - b * ⌊a / b⌋ = b * (a / b - ⌊a / b⌋) := by
    field_simp
  rw [h2]
  calc b * (a / b - ⌊a / b⌋) < b * 1 := by
        exact mul_lt_mul_of_pos_left h hb
    _ = b := mul_one b

lemma wind_direction_index_bounds (d : ℚ) :
    0 ≤ wind_direction_index d ∧ wind_direction_index d < 8 := by
  unfold wind_direction_index
  have h0 : (0 : ℚ) ≤ pymod (d + 22.5) 360 := pymod_nonneg _ _ (by norm_num)
  have h1 : pymod (d + 22.5) 360 < 360 := pymod_lt _ _ (by norm_num)
  have hq0 : (0 : ℚ) ≤ pymod (d + 22.5) 360 / 45 := by positivity
  have hq1 : pymod (d + 22.5) 360 / 45 < 8 := by
    rw [div_lt_iff₀ (by norm_num)]
    linarith
  unfold pyInt
  rw [if_pos hq0]
  constructor
  · exact Int.floor_nonneg.mpr hq0
  · exact Int.floor_lt.mpr (by exact_mod_cast hq1)

/-- C9: confirmed.  For every finite stored wind-direction value (modelled
as an exact rational, negative and ≥ 360 degrees included), the index
int(((direction + 22.5) % 360) / 45) lies in [0, 7], because the Python %
with modulus 360 returns a value in [0, 360); so the lookup into the
8-element compass list is in range and the property returns one of the
eight compass strings. -/
theorem wind_direction_in_range (d : ℚ) :
    0 ≤ wind_direction_index d
    ∧ wind_direction_index d < 8
    ∧ wind_direction d ∈ compass_points := by
  obtain ⟨h0, h8⟩ := wind_direction_index_bounds d
  refine ⟨h0, h8, ?_⟩
  have hlen : (wind_direction_index d).toNat < compass_points.length := by
    simp only [compass_points, List.length]
    omega
  unfold wind_direction
  rw [List.getD_eq_getElem compass_points "N" hlen]
  exact List.getElem_mem hlen

end WeatherChimes
